import Mathlib

/-!
Verification development for the AI-Promter content-generation pipeline.

Shallow embedding of the rate-limited job queue core:
  * `src/src/ai_services/claude_service.py` — retry wrapper
    (`ClaudeService._make_request_with_retry`);
  * `src/src/ai_services/rate_limiter.py` — sliding-window rate limiter
    (`RateLimiter.acquire`);
  * `src/src/core/project_queue.py` — job record, per-job attempt loop,
    promotion loop, statistics and reclamation;
  * `src/src/bot/processors.py` — the ad-hoc single-job result saving
    (`save_generation_result`).

Python strings are Lean `String`s (`len` = `String.length`, the number of
code points); wall-clock times are rationals (seconds); sleeping `w`
seconds is modelled as advancing the current time by exactly `w`;
a Python exception is the `Except.error` carrying `str(e)`.
-/

set_option maxRecDepth 4000

deriving instance DecidableEq for Except

/-- `needle` is a prefix of `haystack` (on character lists). -/
def isPrefixChars : List Char → List Char → Bool
  | [], _ => true
  | _ :: _, [] => false
  | c :: cs, d :: ds => c == d && isPrefixChars cs ds

/-- Python `needle in haystack` on character lists: some suffix of
`haystack` starts with `needle`. -/
def hasSubstrChars (needle : List Char) : List Char → Bool
  | [] => isPrefixChars needle []
  | c :: cs => isPrefixChars needle (c :: cs) || hasSubstrChars needle cs

/-- Python `needle in haystack` for strings. -/
def strHasSubstr (haystack needle : String) : Bool :=
  hasSubstrChars needle.data haystack.data

/-- Python `haystack.lower()`, per-character (all messages involved are
ASCII, where `str.lower` is exactly per-character lowering). -/
def strLower (s : String) : List Char :=
  s.data.map Char.toLower

/-- Python `needle in haystack.lower()`. -/
def strHasSubstrLower (haystack needle : String) : Bool :=
  hasSubstrChars needle.data (strLower haystack)

/-! ## Retry wrapper — `ClaudeService._make_request_with_retry`
(claude_service.py lines 16–50) -/

/-- claude_service.py line 29: `"rate_limit_error" in error_str or "429" in
error_str`. -/
def retryIsRateLimitError (errorStr : String) : Bool :=
  strHasSubstr errorStr "rate_limit_error" || strHasSubstr errorStr "429"

/-- claude_service.py line 39: the distinguished error message raised when
rate-limit retries are exhausted. -/
def rateLimitExceededMessage (maxRetries : Nat) : String :=
  "Rate limit exceeded after " ++ toString maxRetries ++
    " attempts. Will retry later."

/-- Outcome of `_make_request_with_retry`: the returned value or raised
error, how many times the wrapped operation was invoked, and the backoff
sleeps performed (in seconds, in order). -/
structure RetryOutcome where
  result : Except String String
  invocations : Nat
  sleeps : List Nat
  deriving DecidableEq, Repr

/-- The `for attempt in range(max_retries)` loop of
`_make_request_with_retry`.  `attempt` is the 0-based loop index; `fuel`
is the number of remaining iterations (`maxRetries - attempt`).  The
wrapped operation (rate-limiter acquire followed by `request_func()`) is
`op attempt`. -/
def retryLoop (op : Nat → Except String String) (maxRetries : Nat) :
    Nat → Nat → RetryOutcome
  | _, 0 => ⟨Except.error "Max retries exceeded", 0, []⟩
  | attempt, fuel + 1 =>
    match op attempt with
    | Except.ok v => ⟨Except.ok v, 1, []⟩
    | Except.error e =>
      if retryIsRateLimitError e then
        if attempt < maxRetries - 1 then
          let r := retryLoop op maxRetries (attempt + 1) fuel
          ⟨r.result, r.invocations + 1, 10 * 3 ^ attempt :: r.sleeps⟩
        else
          ⟨Except.error (rateLimitExceededMessage maxRetries), 1, []⟩
      else if attempt < maxRetries - 1 then
        let r := retryLoop op maxRetries (attempt + 1) fuel
        ⟨r.result, r.invocations + 1, 2 * (attempt + 1) :: r.sleeps⟩
      else
        ⟨Except.error e, 1, []⟩

/-- `_make_request_with_retry(request_func, max_retries)` (the source
default for `max_retries` is 3). -/
def makeRequestWithRetry (op : Nat → Except String String)
    (maxRetries : Nat) : RetryOutcome :=
  retryLoop op maxRetries 0 maxRetries

example :
    makeRequestWithRetry (fun i => if i < 1 then Except.error "rate_limit_error" else Except.ok "yes") 3 =
      ⟨Except.ok "yes", 2, [10]⟩ := by decide

example :
    makeRequestWithRetry (fun _ => Except.error "status 429") 3 =
      ⟨Except.error (rateLimitExceededMessage 3), 3, [10, 30]⟩ := by decide

/-! ## Job record and per-job attempt loop — `project_queue.py` -/

/-- project_queue.py lines 11–15: `ProjectStatus`. -/
inductive ProjectStatus
  | queued
  | processing
  | completed
  | failed
  deriving DecidableEq, Repr

/-- One entry of `valid_files`/`invalid_files` (the `file_data` dict built
in `_save_project_result`, lines 234–242; the wall-clock `timestamp`
string is omitted). -/
structure FileData where
  content : String
  char_count : Nat
  attempt : Nat
  successful_attempt : Nat
  min_length : Nat
  max_length : Nat
  deriving DecidableEq, Repr

/-- project_queue.py lines 18–36: `ProjectTask` (the wall-clock
`created_at` is a rational number of seconds). -/
structure ProjectTask where
  project_id : String
  user_id : Int
  outline : String
  sonnet_prompt : String
  target_volume : String
  min_length : Nat
  max_length : Nat
  created_at : ℚ := 0
  status : ProjectStatus := ProjectStatus.queued
  attempt_count : Nat := 0
  successful_attempts : Nat := 0
  valid_responses : Nat := 0
  invalid_responses : Nat := 0
  valid_files : List FileData := []
  invalid_files : List FileData := []
  error_message : Option String := none
  deriving DecidableEq, Repr

/-- project_queue.py lines 224–253: `ProjectQueue._save_project_result`.
Returns the mutated task and `is_valid`. -/
def saveProjectResult (result : String) (task : ProjectTask)
    (min_length max_length : Nat) : ProjectTask × Bool :=
  let char_count := result.length
  let is_valid := decide (min_length ≤ char_count) && decide (char_count ≤ max_length)
  let task := { task with successful_attempts := task.successful_attempts + 1 }
  let file_data : FileData :=
    { content := result
      char_count := char_count
      attempt := task.attempt_count
      successful_attempt := task.successful_attempts
      min_length := min_length
      max_length := max_length }
  if is_valid then
    ({ task with valid_responses := task.valid_responses + 1
                 valid_files := task.valid_files ++ [file_data] }, true)
  else
    ({ task with invalid_responses := task.invalid_responses + 1
                 invalid_files := task.invalid_files ++ [file_data] }, false)

/-- project_queue.py line 188: `"rate_limit" in error_str.lower() or "429"
in error_str` — the job loop's classification of a caught exception. -/
def queueIsRateLimitError (errorStr : String) : Bool :=
  strHasSubstrLower errorStr "rate_limit" || strHasSubstr errorStr "429"

/-- Result of one iteration of the per-job attempt loop: the mutated task,
whether this attempt produced a valid result, and the pacing sleep (in
seconds) performed after the attempt. -/
structure StepResult where
  task : ProjectTask
  found : Bool
  sleep : Nat
  deriving DecidableEq, Repr

/-- One iteration of the `while` loop of `_process_single_project`
(project_queue.py lines 165–193): increment `attempt_count`; on a
returned result run `_save_project_result` (sleeping 1s if invalid); on a
raised exception sleep 60s if it is classified as a rate limit, else 5s. -/
def processStep (outcome : Except String String) (task : ProjectTask) :
    StepResult :=
  let task := { task with attempt_count := task.attempt_count + 1 }
  match outcome with
  | Except.ok result =>
    let r := saveProjectResult result task task.min_length task.max_length
    ⟨r.1, r.2, if r.2 then 0 else 1⟩
  | Except.error e =>
    ⟨task, false, if queueIsRateLimitError e then 60 else 5⟩

/-- The `while not found_valid and task.attempt_count < max_attempts` loop
of `_process_single_project`.  `gen n` is the outcome of the remote call
made while `attempt_count = n` (`n` counts from 1 for a fresh task);
`fuel` bounds the remaining iterations and is chosen `≥ maxAttempts -
attempt_count` by the caller, which makes the 0-fuel clause unreachable. -/
def projectLoop (gen : Nat → Except String String) (maxAttempts : Nat) :
    Nat → ProjectTask → ProjectTask × Bool
  | 0, task => (task, false)
  | fuel + 1, task =>
    if task.attempt_count < maxAttempts then
      if (processStep (gen (task.attempt_count + 1)) task).found then
        ((processStep (gen (task.attempt_count + 1)) task).task, true)
      else
        projectLoop gen maxAttempts fuel
          (processStep (gen (task.attempt_count + 1)) task).task
    else (task, false)

/-- Lifetime counters of `ProjectQueue` (project_queue.py lines 52–55). -/
structure QueueCounters where
  total_completed_count : Nat
  total_failed_count : Nat
  total_processed_count : Nat
  deriving DecidableEq, Repr

/-- project_queue.py line 163: `max_attempts = 20`. -/
def maxAttemptsPerJob : Nat := 20

/-- `ProjectQueue._process_single_project` (lines 151–222) for a job whose
attempt loop is run: the attempt loop followed by the terminal transition
(lines 195–210) updating the task status and the lifetime counters. -/
def processSingleProject (gen : Nat → Except String String)
    (task : ProjectTask) (q : QueueCounters) : ProjectTask × QueueCounters :=
  if (projectLoop gen maxAttemptsPerJob
      (maxAttemptsPerJob - task.attempt_count) task).2 then
    ({ (projectLoop gen maxAttemptsPerJob
        (maxAttemptsPerJob - task.attempt_count) task).1 with
          status := ProjectStatus.completed },
     { q with total_completed_count := q.total_completed_count + 1
              total_processed_count := q.total_processed_count + 1 })
  else
    ({ (projectLoop gen maxAttemptsPerJob
        (maxAttemptsPerJob - task.attempt_count) task).1 with
          status := ProjectStatus.failed
          error_message := some ("Max attempts (" ++
            toString maxAttemptsPerJob ++ ") reached without valid result") },
     { q with total_failed_count := q.total_failed_count + 1
              total_processed_count := q.total_processed_count + 1 })

/-- Boolean validity of one attempt outcome against a length window:
a returned result whose length lies in the inclusive window. -/
def outcomeValidB (o : Except String String) (min_length max_length : Nat) : Bool :=
  match o with
  | Except.ok s => decide (min_length ≤ s.length) && decide (s.length ≤ max_length)
  | Except.error _ => false

/-! ## Ad-hoc single path — `processors.py` -/

/-- The per-user `session` dict fields touched by
`save_generation_result` (processors.py lines 130–173). -/
structure Session where
  attempt_count : Nat
  successful_attempts : Nat
  valid_responses : Nat
  invalid_responses : Nat
  valid_files : List FileData
  invalid_files : List FileData
  deriving DecidableEq, Repr

/-- processors.py lines 130–173: `save_generation_result` (the Telegram
progress-message edit is I/O only and is omitted). -/
def saveGenerationResult (result : String) (session : Session)
    (min_length max_length : Nat) : Session × Bool :=
  let char_count := result.length
  let is_valid := decide (min_length ≤ char_count) && decide (char_count ≤ max_length)
  let session := { session with successful_attempts := session.successful_attempts + 1 }
  let file_data : FileData :=
    { content := result
      char_count := char_count
      attempt := session.attempt_count
      successful_attempt := session.successful_attempts
      min_length := min_length
      max_length := max_length }
  if is_valid then
    ({ session with valid_responses := session.valid_responses + 1
                    valid_files := session.valid_files ++ [file_data] }, true)
  else
    ({ session with invalid_responses := session.invalid_responses + 1
                    invalid_files := session.invalid_files ++ [file_data] }, false)

/-- A fresh task as built on submission (all progress counters zero). -/
def freshTask (pid : String) (uid : Int) (outline sp tv : String)
    (minL maxL : Nat) : ProjectTask :=
  { project_id := pid, user_id := uid, outline := outline,
    sonnet_prompt := sp, target_volume := tv,
    min_length := minL, max_length := maxL }

example :
    (processStep (Except.error "connection reset") (freshTask "p" 1 "o" "" "15k" 100 200)).sleep = 5 := by
  decide

example :
    (processStep (Except.error "rate_limit_error 429") (freshTask "p" 1 "o" "" "15k" 100 200)).sleep = 60 := by
  decide

/-! ## Rate limiter — `rate_limiter.py` -/

/-- rate_limiter.py lines 11–22: `RateLimiter` state.  Timestamps are
rational seconds. -/
structure RateLimiterState where
  max_requests_per_minute : Nat
  max_input_tokens_per_minute : Nat
  max_output_tokens_per_minute : Nat
  request_times : List ℚ
  input_token_usage : List (ℚ × Nat)
  output_token_usage : List (ℚ × Nat)
  last_request_time : ℚ
  deriving DecidableEq, Repr

/-- rate_limiter.py line 22: `min_request_interval = 0.1`. -/
def minRequestInterval : ℚ := 1 / 10

/-- Result of `acquire`: the state after recording the request, the time
at which the request was recorded, and the sleeps performed (in seconds,
in order; the minimum-interval sleep excluded). -/
structure AcquireResult where
  state : RateLimiterState
  finish_time : ℚ
  sleeps : List ℚ
  deriving DecidableEq, Repr

/-- One budget check of `acquire` (rate_limiter.py lines 41–62): if the
budget would be exceeded, index the window's oldest entry (`none` models
the `IndexError` raised by `[0]` on an empty list), compute
`wait = 60 - (now - oldest) + 1`, sleep it (time advances by `wait`);
otherwise pass through. -/
def budgetWait (exceeded : Bool) (oldest : Option ℚ) (now : ℚ) :
    Option (ℚ × List ℚ) :=
  if exceeded then
    match oldest with
    | none => none
    | some t0 => some (now + (60 - (now - t0) + 1), [60 - (now - t0) + 1])
  else some (now, [])

/-- The body of `RateLimiter.acquire` (rate_limiter.py lines 35–68)
starting from the pruning step, at current time `now1` (the time after
the minimum-interval sleep).  `none` models an uncaught `IndexError`.
The three budget checks run once each, in sequence; after all of them the
request is recorded in all three (pruned) windows. -/
def acquireAt (st : RateLimiterState) (now1 : ℚ) (estIn estOut : Nat) :
    Option AcquireResult := do
  let rts := st.request_times.filter (fun t => decide (now1 - 60 < t))
  let itu := st.input_token_usage.filter (fun p => decide (now1 - 60 < p.1))
  let otu := st.output_token_usage.filter (fun p => decide (now1 - 60 < p.1))
  let r1 ← budgetWait (decide (st.max_requests_per_minute ≤ rts.length))
    rts.head? now1
  let r2 ← budgetWait
    (decide (st.max_input_tokens_per_minute < (itu.map Prod.snd).sum + estIn))
    (itu.head?.map Prod.fst) r1.1
  let r3 ← budgetWait
    (decide (st.max_output_tokens_per_minute < (otu.map Prod.snd).sum + estOut))
    (otu.head?.map Prod.fst) r2.1
  some ⟨{ st with
      request_times := rts ++ [r3.1]
      input_token_usage := itu ++ [(r3.1, estIn)]
      output_token_usage := otu ++ [(r3.1, estOut)]
      last_request_time := r3.1 },
    r3.1, r1.2 ++ r2.2 ++ r3.2⟩

/-- rate_limiter.py lines 24–68: `RateLimiter.acquire`, entered at wall
time `now0`: the minimum-interval sleep (lines 29–33) followed by the
pruning and budget checks. -/
def acquire (st : RateLimiterState) (now0 : ℚ) (estIn estOut : Nat) :
    Option AcquireResult :=
  acquireAt st
    (if now0 - st.last_request_time < minRequestInterval then
      now0 + (minRequestInterval - (now0 - st.last_request_time))
    else now0) estIn estOut

/-- The tokens recorded in a `(timestamp, tokens)` window that fall inside
the trailing 60-second window ending at `t`. -/
def windowUsageAt (w : List (ℚ × Nat)) (t : ℚ) : Nat :=
  ((w.filter (fun p => decide (t - 60 < p.1))).map Prod.snd).sum

/-! ## Scheduler transition system — `project_queue.py` lines 73–149

The interleaving of `add_project`, the promotion step inside
`_process_queue` and the terminal step of `_process_single_project` is
modelled as a labelled transition system; every mutation of the shared
lists happens under `_processing_lock`, so one transition corresponds to
one critical section.  `submitted` and `promoted` are ghost histories
recording the order of submissions and of QUEUED→PROCESSING promotions. -/

/-- The shared scheduler state: the `projects` dict (association list
id ↦ status), the `queue` and `processing` lists, and ghost histories. -/
structure SchedState where
  projects : List (String × ProjectStatus)
  queue : List String
  processing : List String
  submitted : List String
  promoted : List String
  deriving DecidableEq, Repr

/-- Status update in the `projects` dict. -/
def setStatus (ps : List (String × ProjectStatus)) (id : String)
    (st : ProjectStatus) : List (String × ProjectStatus) :=
  ps.map (fun p => if p.1 = id then (p.1, st) else p)

/-- One critical section of the scheduler, with concurrency bound `m`
(`max_concurrent_projects`):
  * `add` — `add_project` (lines 73–83): a new task (status QUEUED, line
    29 default) is stored in the dict and appended to `queue`;
  * `promote` — one iteration of the `while` at lines 122–133: when
    `len(processing) < max_concurrent_projects` and the queue is
    non-empty, `queue.pop(0)` is appended to `processing` and its status
    set to PROCESSING;
  * `finish` — the terminal section of `_process_single_project` (lines
    196–222): a processing job is removed from `processing` and its
    status set to COMPLETED or FAILED. -/
inductive SchedStep (m : Nat) : SchedState → SchedState → Prop
  | add (s : SchedState) (id : String)
      (hnew : id ∉ s.projects.map Prod.fst) :
      SchedStep m s
        { projects := s.projects ++ [(id, ProjectStatus.queued)]
          queue := s.queue ++ [id]
          processing := s.processing
          submitted := s.submitted ++ [id]
          promoted := s.promoted }
  | promote (s : SchedState) (id : String) (rest : List String)
      (hq : s.queue = id :: rest)
      (hcap : s.processing.length < m) :
      SchedStep m s
        { projects := setStatus s.projects id ProjectStatus.processing
          queue := rest
          processing := s.processing ++ [id]
          submitted := s.submitted
          promoted := s.promoted ++ [id] }
  | finish (s : SchedState) (id : String) (st : ProjectStatus)
      (hmem : id ∈ s.processing)
      (hterm : st = ProjectStatus.completed ∨ st = ProjectStatus.failed) :
      SchedStep m s
        { projects := setStatus s.projects id st
          queue := s.queue
          processing := s.processing.erase id
          submitted := s.submitted
          promoted := s.promoted }

/-- The empty scheduler state (`ProjectQueue.__init__`, lines 42–55). -/
def initSched : SchedState := ⟨[], [], [], [], []⟩

/-- States reachable from the empty scheduler by critical sections. -/
inductive SchedReachable (m : Nat) : SchedState → Prop
  | init : SchedReachable m initSched
  | step {s s' : SchedState} : SchedReachable m s → SchedStep m s s' →
      SchedReachable m s'

/-! ## Reclamation — `project_queue.py` lines 93–111 and 285–304

`remove_project` and `cleanup_old_projects` each enter
`async with self._processing_lock`; `asyncio.Lock` is not reentrant, so
an execution is modelled with an explicit `lockHeld` flag and a
`deadlock` outcome for re-acquiring the held lock. -/

/-- Outcome of a lock-guarded operation: normal completion, or a deadlock
from re-acquiring the already-held non-reentrant lock. -/
inductive LockResult (α : Type)
  | ok (a : α)
  | deadlock
  deriving DecidableEq, Repr

/-- The full queue state touched by reclamation: the `projects` dict, the
four id lists, and the lifetime counters. -/
structure FullQueueState where
  projects : List (String × ProjectTask)
  queue : List String
  processing : List String
  completed : List String
  failed : List String
  counters : QueueCounters
  deriving DecidableEq, Repr

/-- project_queue.py lines 93–111: `ProjectQueue.remove_project`, entered
with the lock state `lockHeld`.  It acquires `_processing_lock` (deadlock
if already held), removes the id from every list and from the dict, and
returns whether the project existed. -/
def removeProject (lockHeld : Bool) (st : FullQueueState) (id : String) :
    LockResult (FullQueueState × Bool) :=
  if lockHeld then LockResult.deadlock
  else if (st.projects.map Prod.fst).contains id then
    LockResult.ok
      ({ st with
          queue := st.queue.erase id
          processing := st.processing.erase id
          completed := st.completed.erase id
          failed := st.failed.erase id
          projects := st.projects.filter (fun p => !(p.1 == id)) }, true)
  else LockResult.ok (st, false)

/-- The `for project_id in projects_to_remove` loop of
`cleanup_old_projects` (lines 299–301), executed while the cleanup's own
critical section still holds the lock. -/
def removeAll (lockHeld : Bool) : List String → FullQueueState →
    LockResult FullQueueState
  | [], st => LockResult.ok st
  | id :: ids, st =>
    match removeProject lockHeld st id with
    | LockResult.deadlock => LockResult.deadlock
    | LockResult.ok r => removeAll lockHeld ids r.1

/-- project_queue.py lines 285–304: `ProjectQueue.cleanup_old_projects`
at wall time `now`, entered with the lock state `lockHeld`.  It acquires
`_processing_lock`, collects the terminal projects older than
`now - max_age_hours`, and then calls `remove_project` on each — while
still holding the lock. -/
def cleanupOldProjects (lockHeld : Bool) (st : FullQueueState) (now : ℚ)
    (max_age_hours : ℚ) : LockResult FullQueueState :=
  if lockHeld then LockResult.deadlock
  else
    let cutoff_time := now - max_age_hours * 3600
    let projects_to_remove := (st.projects.filter (fun p =>
      (p.2.status == ProjectStatus.completed ||
       p.2.status == ProjectStatus.failed) &&
      decide (p.2.created_at < cutoff_time))).map Prod.fst
    removeAll true projects_to_remove st

/-! # Theorems -/

/-! ## Validity classifier (claim C4) -/

/-- Claim C4: for every result text and every window with `minLength ≤
maxLength`, both result-saving paths (`_save_project_result` in the queue
and `save_generation_result` in the ad-hoc path) judge the result valid
exactly when `minLength ≤ length(resultText) ≤ maxLength`, with both
boundary lengths classified valid. -/
theorem validity_classification_inclusive (result : String)
    (task : ProjectTask) (session : Session) (minL maxL : Nat)
    (h : minL ≤ maxL) :
    (saveProjectResult result task minL maxL).2 =
      (decide (minL ≤ result.length) && decide (result.length ≤ maxL)) ∧
    (saveGenerationResult result session minL maxL).2 =
      (decide (minL ≤ result.length) && decide (result.length ≤ maxL)) ∧
    (result.length = minL →
      (saveProjectResult result task minL maxL).2 = true ∧
      (saveGenerationResult result session minL maxL).2 = true) ∧
    (result.length = maxL →
      (saveProjectResult result task minL maxL).2 = true ∧
      (saveGenerationResult result session minL maxL).2 = true) := by
  have h1 : (saveProjectResult result task minL maxL).2 =
      (decide (minL ≤ result.length) && decide (result.length ≤ maxL)) := by
    cases hb : (decide (minL ≤ result.length) && decide (result.length ≤ maxL)) <;>
      simp [saveProjectResult, hb]
  have h2 : (saveGenerationResult result session minL maxL).2 =
      (decide (minL ≤ result.length) && decide (result.length ≤ maxL)) := by
    cases hb : (decide (minL ≤ result.length) && decide (result.length ≤ maxL)) <;>
      simp [saveGenerationResult, hb]
  refine ⟨h1, h2, ?_, ?_⟩
  · intro hmin
    rw [h1, h2, hmin]
    simp [h]
  · intro hmax
    rw [h1, h2, hmax]
    simp [h]

/-- Claim C4 witness: window `[3, 5]`, a 3-character result (lower
boundary) is valid in both paths. -/
theorem validity_classification_inclusive_witness :
    (3 : Nat) ≤ 5 ∧
    (saveProjectResult "abc" (freshTask "p" 1 "o" "" "15k" 3 5) 3 5).2 = true ∧
    (saveGenerationResult "abc" ⟨0, 0, 0, 0, [], []⟩ 3 5).2 = true := by
  refine ⟨by decide, ?_⟩
  have h := validity_classification_inclusive "abc"
    (freshTask "p" 1 "o" "" "15k" 3 5) ⟨0, 0, 0, 0, [], []⟩ 3 5 (by decide)
  exact h.2.2.1 (by decide)

/-! ## The distinguished rate-limit error and the job loop (claim C3) -/

/-- Claim C3 (code bug): the retry wrapper's distinguished message
`"Rate limit exceeded after 3 attempts. Will retry later."` is NOT
classified as a rate-limit condition by the job loop's check
(`"rate_limit" in error_str.lower() or "429" in error_str`,
project_queue.py line 188) — the message spells "Rate limit" with a
space, the check looks for an underscore — so the loop sleeps the generic
5 seconds instead of 60.  The error still does not end the job (the
attempt is not counted as a valid result and the loop keeps going). -/
theorem distinguished_rate_limit_error_misclassified :
    queueIsRateLimitError (rateLimitExceededMessage 3) = false ∧
    (processStep (Except.error (rateLimitExceededMessage 3))
      (freshTask "p1" 1 "outline" "" "15k" 100 200)).sleep = 5 ∧
    (processStep (Except.error (rateLimitExceededMessage 3))
      (freshTask "p1" 1 "outline" "" "15k" 100 200)).found = false ∧
    retryIsRateLimitError "rate_limit_error: too many requests" = true ∧
    queueIsRateLimitError "rate_limit_error: too many requests" = true := by
  decide

/-! ## Retry wrapper (claims C5 and C6) -/

/-- If attempts `attempt, …, k-1` raise rate-limit-classified errors and
attempt `k` succeeds, the retry loop returns the success value after
`k + 1 - attempt` invocations. -/
theorem retryLoop_success (op : Nat → Except String String)
    (maxRetries k : Nat) (v : String) (hk : k < maxRetries)
    (hfail : ∀ i, i < k → ∃ e, op i = Except.error e ∧
      retryIsRateLimitError e = true)
    (hsucc : op k = Except.ok v) :
    ∀ fuel attempt, attempt ≤ k → k < attempt + fuel →
      (retryLoop op maxRetries attempt fuel).result = Except.ok v ∧
      (retryLoop op maxRetries attempt fuel).invocations = k + 1 - attempt := by
  intro fuel
  induction fuel with
  | zero => intro attempt h1 h2; omega
  | succ n ih =>
    intro attempt h1 h2
    rcases Nat.lt_or_ge attempt k with hlt | hge
    · obtain ⟨e, he, hrl⟩ := hfail attempt hlt
      have hbr : attempt < maxRetries - 1 := by omega
      have hrec := ih (attempt + 1) (by omega) (by omega)
      simp only [retryLoop, he, hrl, if_pos hbr, if_true]
      refine ⟨hrec.1, ?_⟩
      have := hrec.2
      omega
    · have heq : attempt = k := Nat.le_antisymm h1 hge
      subst heq
      simp [retryLoop, hsucc]

/-- Claim C5: an operation that raises a rate-limit-classified error on
exactly its first `k` invocations, `k < maxAttempts`, and then returns a
value makes the retry wrapper return that value after exactly `k + 1`
invocations of the operation. -/
theorem retry_success_after_k_rate_limit_failures
    (op : Nat → Except String String) (maxRetries k : Nat) (v : String)
    (hk : k < maxRetries)
    (hfail : ∀ i, i < k → ∃ e, op i = Except.error e ∧
      retryIsRateLimitError e = true)
    (hsucc : op k = Except.ok v) :
    (makeRequestWithRetry op maxRetries).result = Except.ok v ∧
    (makeRequestWithRetry op maxRetries).invocations = k + 1 := by
  have h := retryLoop_success op maxRetries k v hk hfail hsucc maxRetries 0
    (Nat.zero_le k) (by omega)
  refine ⟨h.1, ?_⟩
  have h2 := h.2
  simp only [makeRequestWithRetry]
  omega

/-- Claim C5 witness: with the default `maxAttempts = 3`, an operation
failing with a rate-limit error only on its first invocation returns the
success value with exactly 2 invocations. -/
theorem retry_success_after_k_rate_limit_failures_witness :
    (makeRequestWithRetry
      (fun i => if i = 0 then Except.error "rate_limit_error hit"
                else Except.ok "done") 3).result = Except.ok "done" ∧
    (makeRequestWithRetry
      (fun i => if i = 0 then Except.error "rate_limit_error hit"
                else Except.ok "done") 3).invocations = 2 := by
  have h := retry_success_after_k_rate_limit_failures
    (fun i => if i = 0 then Except.error "rate_limit_error hit"
              else Except.ok "done") 3 1 "done" (by omega)
    (fun i hi => by
      have h0 : i = 0 := by omega
      subst h0
      exact ⟨"rate_limit_error hit", by decide⟩)
    rfl
  exact h

/-- If every attempt from `attempt` on raises a rate-limit-classified
error, the retry loop raises the distinguished message after consuming
all its fuel, with backoff sleeps `10 * 3 ^ i` for each non-final
attempt `i`. -/
theorem retryLoop_exhaustion (op : Nat → Except String String)
    (maxRetries : Nat)
    (hfail : ∀ i, ∃ e, op i = Except.error e ∧
      retryIsRateLimitError e = true) :
    ∀ fuel attempt, attempt + fuel = maxRetries → 0 < fuel →
      retryLoop op maxRetries attempt fuel =
        ⟨Except.error (rateLimitExceededMessage maxRetries), fuel,
         (List.range' attempt (fuel - 1)).map (fun i => 10 * 3 ^ i)⟩ := by
  intro fuel
  induction fuel with
  | zero => intro attempt _ h; omega
  | succ n ih =>
    intro attempt hsum _
    obtain ⟨e, he, hrl⟩ := hfail attempt
    cases n with
    | zero =>
      have hbr : ¬ attempt < maxRetries - 1 := by omega
      simp [retryLoop, he, hrl, hbr, List.range']
    | succ m =>
      have hbr : attempt < maxRetries - 1 := by omega
      have hrec := ih (attempt + 1) (by omega) (by omega)
      rw [retryLoop.eq_2, he]
      simp [hrl, hbr, hrec, List.range']

/-- Claim C6: an operation that raises a rate-limit-classified error on
every invocation is invoked exactly `maxAttempts` times; the wrapper then
raises the distinguished "rate limit exceeded, retry later" error (not
the operation's own error), having slept `10 * 3 ^ attemptIndex` seconds
(0-based) between consecutive attempts. -/
theorem retry_rate_limit_exhaustion (op : Nat → Except String String)
    (maxRetries : Nat) (hpos : 0 < maxRetries)
    (hfail : ∀ i, ∃ e, op i = Except.error e ∧
      retryIsRateLimitError e = true) :
    makeRequestWithRetry op maxRetries =
      ⟨Except.error (rateLimitExceededMessage maxRetries), maxRetries,
       (List.range (maxRetries - 1)).map (fun i => 10 * 3 ^ i)⟩ := by
  have h := retryLoop_exhaustion op maxRetries hfail maxRetries 0
    (Nat.zero_add maxRetries) hpos
  rw [makeRequestWithRetry, h, List.range_eq_range']

/-- Claim C6 witness: with the default `maxAttempts = 3`, an operation
always failing with HTTP 429 is invoked 3 times, the distinguished error
is raised, and the backoff sleeps are 10 and 30 seconds. -/
theorem retry_rate_limit_exhaustion_witness :
    makeRequestWithRetry (fun _ => Except.error "HTTP 429 Too Many Requests") 3 =
      ⟨Except.error (rateLimitExceededMessage 3), 3, [10, 30]⟩ := by
  have h := retry_rate_limit_exhaustion
    (fun _ => Except.error "HTTP 429 Too Many Requests") 3 (by omega)
    (fun i => ⟨"HTTP 429 Too Many Requests", rfl, by decide⟩)
  rw [h]
  decide

/-! ## Per-job attempt loop (claims C1 and C2) -/

/-- Each loop iteration increments `attempt_count` by exactly one. -/
theorem processStep_attempt_count (o : Except String String)
    (t : ProjectTask) :
    (processStep o t).task.attempt_count = t.attempt_count + 1 := by
  cases o with
  | ok s =>
    cases hb : (decide (t.min_length ≤ s.length) && decide (s.length ≤ t.max_length)) <;>
      simp [processStep, saveProjectResult, hb]
  | error e => simp [processStep]

/-- Loop iterations do not change the length window. -/
theorem processStep_window (o : Except String String) (t : ProjectTask) :
    (processStep o t).task.min_length = t.min_length ∧
    (processStep o t).task.max_length = t.max_length := by
  cases o with
  | ok s =>
    cases hb : (decide (t.min_length ≤ s.length) && decide (s.length ≤ t.max_length)) <;>
      simp [processStep, saveProjectResult, hb]
  | error e => simp [processStep]

/-- An iteration reports a valid result exactly when the attempt outcome
is a returned result whose length lies in the task's inclusive window. -/
theorem processStep_found (o : Except String String) (t : ProjectTask) :
    (processStep o t).found = outcomeValidB o t.min_length t.max_length := by
  cases o with
  | ok s =>
    cases hb : (decide (t.min_length ≤ s.length) && decide (s.length ≤ t.max_length)) <;>
      simp [processStep, saveProjectResult, outcomeValidB, hb]
  | error e => simp [processStep, outcomeValidB]

/-- The per-job counter invariant of the spec:
`attemptCount ≥ successfulAttempts ≥ validResponses + invalidResponses`. -/
def TaskCountersInv (t : ProjectTask) : Prop :=
  t.valid_responses + t.invalid_responses ≤ t.successful_attempts ∧
  t.successful_attempts ≤ t.attempt_count

/-- One loop iteration preserves the counter invariant. -/
theorem processStep_inv (o : Except String String) (t : ProjectTask)
    (h : TaskCountersInv t) : TaskCountersInv (processStep o t).task := by
  obtain ⟨h1, h2⟩ := h
  cases o with
  | ok s =>
    cases hb : (decide (t.min_length ≤ s.length) && decide (s.length ≤ t.max_length)) <;>
      · simp only [processStep, saveProjectResult, hb, TaskCountersInv]
        simp
        omega
  | error e =>
    simp only [processStep, TaskCountersInv]
    exact ⟨h1, by omega⟩

/-- The whole attempt loop preserves the counter invariant. -/
theorem projectLoop_inv (gen : Nat → Except String String) (maxA : Nat) :
    ∀ fuel t, TaskCountersInv t →
      TaskCountersInv (projectLoop gen maxA fuel t).1 := by
  intro fuel
  induction fuel with
  | zero => intro t h; exact h
  | succ n ih =>
    intro t h
    rw [projectLoop.eq_2]
    by_cases hg : t.attempt_count < maxA
    · cases hf : (processStep (gen (t.attempt_count + 1)) t).found
      · rw [if_pos hg, if_neg (by simp)]
        exact ih _ (processStep_inv _ _ h)
      · rw [if_pos hg, if_pos rfl]
        exact processStep_inv _ _ h
    · rw [if_neg hg]
      exact h

/-- The attempt loop never pushes `attempt_count` past the cap. -/
theorem projectLoop_attempt_le (gen : Nat → Except String String)
    (maxA : Nat) :
    ∀ fuel t, t.attempt_count ≤ maxA →
      (projectLoop gen maxA fuel t).1.attempt_count ≤ maxA := by
  intro fuel
  induction fuel with
  | zero => intro t h; exact h
  | succ n ih =>
    intro t h
    rw [projectLoop.eq_2]
    by_cases hg : t.attempt_count < maxA
    · cases hf : (processStep (gen (t.attempt_count + 1)) t).found
      · rw [if_pos hg, if_neg (by simp)]
        exact ih _ (by rw [processStep_attempt_count]; omega)
      · rw [if_pos hg, if_pos rfl]
        show (processStep (gen (t.attempt_count + 1)) t).task.attempt_count ≤ maxA
        rw [processStep_attempt_count]
        omega
    · rw [if_neg hg]
      exact h

/-- If attempt `j` is the first valid one and it is within both the
remaining fuel and the cap, the loop stops right there. -/
theorem projectLoop_first_valid (gen : Nat → Except String String)
    (maxA minL maxL : Nat) :
    ∀ fuel (t : ProjectTask) (j : Nat),
      t.min_length = minL → t.max_length = maxL →
      t.attempt_count < j → j ≤ t.attempt_count + fuel → j ≤ maxA →
      outcomeValidB (gen j) minL maxL = true →
      (∀ i, i < j → t.attempt_count < i →
        outcomeValidB (gen i) minL maxL = false) →
      (projectLoop gen maxA fuel t).2 = true ∧
      (projectLoop gen maxA fuel t).1.attempt_count = j := by
  intro fuel
  induction fuel with
  | zero => intro t j _ _ h1 h2 _ _ _; omega
  | succ n ih =>
    intro t j hmin hmax h1 h2 h3 hval hfail
    have hg : t.attempt_count < maxA := by omega
    rw [projectLoop.eq_2]
    obtain ⟨w1, w2⟩ := processStep_window (gen (t.attempt_count + 1)) t
    rcases Nat.lt_or_ge (t.attempt_count + 1) j with hlt | hge2
    · have hf : (processStep (gen (t.attempt_count + 1)) t).found = false := by
        rw [processStep_found, hmin, hmax]
        exact hfail _ hlt (Nat.lt_succ_self _)
      rw [if_pos hg, hf, if_neg (by simp)]
      refine ih _ j (by rw [w1, hmin]) (by rw [w2, hmax])
        (by rw [processStep_attempt_count]; omega)
        (by rw [processStep_attempt_count]; omega) h3 hval ?_
      intro i hij hib
      rw [processStep_attempt_count] at hib
      exact hfail i hij (by omega)
    · have hj : t.attempt_count + 1 = j := by omega
      have hf : (processStep (gen (t.attempt_count + 1)) t).found = true := by
        rw [processStep_found, hmin, hmax, hj]
        exact hval
      rw [if_pos hg, hf, if_pos rfl]
      refine ⟨rfl, ?_⟩
      show (processStep (gen (t.attempt_count + 1)) t).task.attempt_count = j
      rw [processStep_attempt_count]
      exact hj

/-- If no attempt up to the cap is valid, the loop runs the cap dry. -/
theorem projectLoop_no_valid (gen : Nat → Except String String)
    (maxA minL maxL : Nat) :
    ∀ fuel t, t.min_length = minL → t.max_length = maxL →
      t.attempt_count + fuel = maxA →
      (∀ i, i ≤ maxA → t.attempt_count < i →
        outcomeValidB (gen i) minL maxL = false) →
      (projectLoop gen maxA fuel t).2 = false ∧
      (projectLoop gen maxA fuel t).1.attempt_count = maxA := by
  intro fuel
  induction fuel with
  | zero =>
    intro t _ _ hsum _
    rw [projectLoop.eq_1]
    refine ⟨rfl, ?_⟩
    show t.attempt_count = maxA
    omega
  | succ n ih =>
    intro t hmin hmax hsum hfail
    have hg : t.attempt_count < maxA := by omega
    rw [projectLoop.eq_2]
    obtain ⟨w1, w2⟩ := processStep_window (gen (t.attempt_count + 1)) t
    have hf : (processStep (gen (t.attempt_count + 1)) t).found = false := by
      rw [processStep_found, hmin, hmax]
      exact hfail _ (by omega) (Nat.lt_succ_self _)
    rw [if_pos hg, hf, if_neg (by simp)]
    refine ih _ (by rw [w1, hmin]) (by rw [w2, hmax])
      (by rw [processStep_attempt_count]; omega) ?_
    intro i hi hib
    rw [processStep_attempt_count] at hib
    exact hfail i hi (by omega)

/-- Claim C1: a job whose attempt loop is run from a fresh task makes at
most 20 attempts; the first attempt `j ≤ 20` that returns an in-window
result stops the loop with `attempt_count = j`, status COMPLETED and
`totalCompleted`/`totalProcessed` each incremented by one; if none of the
20 attempts is valid, the job ends FAILED with the attempts-exhausted
`errorMessage` and `totalFailed`/`totalProcessed` each incremented by
one. -/
theorem job_loop_terminal_transition (gen : Nat → Except String String)
    (t : ProjectTask) (q : QueueCounters) (hfresh : t.attempt_count = 0) :
    (processSingleProject gen t q).1.attempt_count ≤ 20 ∧
    (∀ j, j ≤ 20 → 1 ≤ j →
      outcomeValidB (gen j) t.min_length t.max_length = true →
      (∀ i, i < j → 1 ≤ i →
        outcomeValidB (gen i) t.min_length t.max_length = false) →
      (processSingleProject gen t q).1.status = ProjectStatus.completed ∧
      (processSingleProject gen t q).1.attempt_count = j ∧
      (processSingleProject gen t q).2.total_completed_count =
        q.total_completed_count + 1 ∧
      (processSingleProject gen t q).2.total_failed_count =
        q.total_failed_count ∧
      (processSingleProject gen t q).2.total_processed_count =
        q.total_processed_count + 1) ∧
    ((∀ j, j ≤ 20 → 1 ≤ j →
        outcomeValidB (gen j) t.min_length t.max_length = false) →
      (processSingleProject gen t q).1.status = ProjectStatus.failed ∧
      (processSingleProject gen t q).1.attempt_count = 20 ∧
      (processSingleProject gen t q).1.error_message =
        some "Max attempts (20) reached without valid result" ∧
      (processSingleProject gen t q).2.total_completed_count =
        q.total_completed_count ∧
      (processSingleProject gen t q).2.total_failed_count =
        q.total_failed_count + 1 ∧
      (processSingleProject gen t q).2.total_processed_count =
        q.total_processed_count + 1) := by
  simp only [processSingleProject, maxAttemptsPerJob, hfresh, Nat.sub_zero]
  refine ⟨?_, ?_, ?_⟩
  · by_cases hr : (projectLoop gen 20 20 t).2 = true
    · rw [if_pos hr]
      exact projectLoop_attempt_le gen 20 20 t (by omega)
    · rw [if_neg hr]
      exact projectLoop_attempt_le gen 20 20 t (by omega)
  · intro j h2 h1 hval hfail
    have hfv := projectLoop_first_valid gen 20 t.min_length t.max_length 20 t j
      rfl rfl (by omega) (by omega) h2 hval
      (fun i hij hti => hfail i hij (by omega))
    rw [if_pos hfv.1]
    exact ⟨rfl, hfv.2, rfl, rfl, rfl⟩
  · intro hall
    have hnv := projectLoop_no_valid gen 20 t.min_length t.max_length 20 t
      rfl rfl (by omega) (fun i hi hti => hall i hi (by omega))
    rw [if_neg (by rw [hnv.1]; simp)]
    refine ⟨rfl, hnv.2, ?_, rfl, rfl, rfl⟩
    show some ("Max attempts (" ++ toString (20 : Nat) ++
      ") reached without valid result") =
      some "Max attempts (20) reached without valid result"
    decide

/-- Claim C1 witness: the spec scenario — window `[100, 200]`, attempt 1
returns a 50-character string, attempt 2 a 150-character one — ends
COMPLETED at `attempt_count = 2` with both lifetime counters bumped. -/
theorem job_loop_terminal_transition_witness :
    (processSingleProject
      (fun i => if i = 2 then Except.ok (String.mk (List.replicate 150 'x'))
                else Except.ok (String.mk (List.replicate 50 'x')))
      (freshTask "w" 1 "X" "" "15k" 100 200) ⟨3, 4, 7⟩).1.status =
        ProjectStatus.completed ∧
    (processSingleProject
      (fun i => if i = 2 then Except.ok (String.mk (List.replicate 150 'x'))
                else Except.ok (String.mk (List.replicate 50 'x')))
      (freshTask "w" 1 "X" "" "15k" 100 200) ⟨3, 4, 7⟩).1.attempt_count = 2 ∧
    (processSingleProject
      (fun i => if i = 2 then Except.ok (String.mk (List.replicate 150 'x'))
                else Except.ok (String.mk (List.replicate 50 'x')))
      (freshTask "w" 1 "X" "" "15k" 100 200) ⟨3, 4, 7⟩).2 = ⟨4, 4, 8⟩ := by
  have h := job_loop_terminal_transition
    (fun i => if i = 2 then Except.ok (String.mk (List.replicate 150 'x'))
              else Except.ok (String.mk (List.replicate 50 'x')))
    (freshTask "w" 1 "X" "" "15k" 100 200) ⟨3, 4, 7⟩ rfl
  have h2 := h.2.1 2 (by omega) (by omega) (by decide)
    (fun i hij hi1 => by
      have hi : i = 1 := by omega
      subst hi
      decide)
  refine ⟨h2.1, h2.2.1, ?_⟩
  have hc := h2.2.2.1
  have hf := h2.2.2.2.1
  have hp := h2.2.2.2.2
  cases hq : (processSingleProject
      (fun i => if i = 2 then Except.ok (String.mk (List.replicate 150 'x'))
                else Except.ok (String.mk (List.replicate 50 'x')))
      (freshTask "w" 1 "X" "" "15k" 100 200) ⟨3, 4, 7⟩).2
  rw [hq] at hc hf hp
  simp at hc hf hp
  simp [hc, hf, hp]

/-- Claim C2: starting from any task satisfying
`attemptCount ≥ successfulAttempts ≥ validResponses + invalidResponses`,
the invariant holds after every single loop iteration (hence at every
observation point of the trace), after the whole attempt loop, and after
the terminal transition; moreover each iteration increments
`attemptCount` by one, an iteration whose remote call raised changes no
other counter, and an iteration that returned a result increments
`successfulAttempts` and exactly one of `validResponses` /
`invalidResponses`. -/
theorem task_counters_invariant (o : Except String String)
    (t : ProjectTask) (h : TaskCountersInv t) :
    TaskCountersInv (processStep o t).task ∧
    (processStep o t).task.attempt_count = t.attempt_count + 1 ∧
    (∀ e, o = Except.error e →
      (processStep o t).task.successful_attempts = t.successful_attempts ∧
      (processStep o t).task.valid_responses = t.valid_responses ∧
      (processStep o t).task.invalid_responses = t.invalid_responses) ∧
    (∀ s, o = Except.ok s →
      (processStep o t).task.successful_attempts = t.successful_attempts + 1 ∧
      (processStep o t).task.valid_responses +
          (processStep o t).task.invalid_responses =
        t.valid_responses + t.invalid_responses + 1) ∧
    (∀ gen maxA fuel, TaskCountersInv (projectLoop gen maxA fuel t).1) ∧
    (∀ gen q, TaskCountersInv (processSingleProject gen t q).1) := by
  refine ⟨processStep_inv o t h, processStep_attempt_count o t, ?_, ?_, ?_, ?_⟩
  · intro e he
    subst he
    simp [processStep]
  · intro s hs
    subst hs
    cases hb : (decide (t.min_length ≤ s.length) && decide (s.length ≤ t.max_length)) <;>
      · simp [processStep, saveProjectResult, hb]
        omega
  · intro gen maxA fuel
    exact projectLoop_inv gen maxA fuel t h
  · intro gen q
    have hl := projectLoop_inv gen maxAttemptsPerJob
      (maxAttemptsPerJob - t.attempt_count) t h
    simp only [processSingleProject]
    by_cases hr : (projectLoop gen maxAttemptsPerJob
        (maxAttemptsPerJob - t.attempt_count) t).2 = true
    · rw [if_pos hr]
      exact hl
    · rw [if_neg hr]
      exact hl

/-- Claim C2 witness: the invariant holds after a successful first
attempt on a fresh task, and that step's counter deltas are as stated. -/
theorem task_counters_invariant_witness :
    TaskCountersInv
      (processStep (Except.ok "abc") (freshTask "p" 1 "o" "" "15k" 1 5)).task ∧
    (processStep (Except.ok "abc")
      (freshTask "p" 1 "o" "" "15k" 1 5)).task.attempt_count = 1 ∧
    (processStep (Except.ok "abc")
      (freshTask "p" 1 "o" "" "15k" 1 5)).task.successful_attempts = 1 := by
  have h := task_counters_invariant (Except.ok "abc")
    (freshTask "p" 1 "o" "" "15k" 1 5) (by refine ⟨?_, ?_⟩ <;> decide)
  refine ⟨h.1, h.2.1, ?_⟩
  exact (h.2.2.2.1 "abc" rfl).1

/-! ## Rate limiter (claims C7 and C10) -/

/-- A `RateLimiter` with the source's default budgets (rate_limiter.py
lines 11–13; the global `claude_rate_limiter` is built with exactly
these) and arbitrary window contents. -/
def defaultRateLimiter (rts : List ℚ) (itu otu : List (ℚ × Nat))
    (last : ℚ) : RateLimiterState :=
  ⟨1000, 450000, 90000, rts, itu, otu, last⟩

/-- Claim C10: on the default-budget limiter, an `acquire` whose
estimated input tokens alone exceed the input budget while the input
window is empty hits the `IndexError` from `input_token_usage[0]`
(modelled as `none`); likewise for the output window; and whenever both
estimates are within their budgets, `acquire` never raises. -/
theorem acquire_empty_window_index_error (rts : List ℚ)
    (itu otu : List (ℚ × Nat)) (last now0 : ℚ) (estIn estOut : Nat) :
    (450000 < estIn →
      acquire (defaultRateLimiter rts [] otu last) now0 estIn estOut = none) ∧
    (estIn ≤ 450000 → 90000 < estOut →
      acquire (defaultRateLimiter rts itu [] last) now0 estIn estOut = none) ∧
    (estIn ≤ 450000 → estOut ≤ 90000 →
      (acquire (defaultRateLimiter rts itu otu last) now0 estIn estOut).isSome =
        true) := by
  have hbw : ∀ (c : Bool) (o : Option ℚ) (now : ℚ),
      (c = true → o.isSome = true) → (budgetWait c o now).isSome = true := by
    intro c o now h
    cases c
    · simp [budgetWait]
    · cases o with
      | none => have := h rfl; simp at this
      | some t0 => simp [budgetWait]
  refine ⟨?_, ?_, ?_⟩
  · intro h
    rw [acquire]
    generalize (if now0 - (defaultRateLimiter rts [] otu last).last_request_time <
      minRequestInterval then _ else now0) = now1
    simp only [acquireAt, defaultRateLimiter, bind]
    cases hc : budgetWait
        (decide (1000 ≤ (rts.filter (fun t => decide (now1 - 60 < t))).length))
        (rts.filter (fun t => decide (now1 - 60 < t))).head? now1 with
    | none => rw [Option.none_bind]
    | some r1 =>
      rw [Option.some_bind]
      simp [budgetWait, h]
  · intro hIn h
    rw [acquire]
    generalize (if now0 - (defaultRateLimiter rts itu [] last).last_request_time <
      minRequestInterval then _ else now0) = now1
    simp only [acquireAt, defaultRateLimiter, bind]
    cases hc1 : budgetWait
        (decide (1000 ≤ (rts.filter (fun t => decide (now1 - 60 < t))).length))
        (rts.filter (fun t => decide (now1 - 60 < t))).head? now1 with
    | none => rw [Option.none_bind]
    | some r1 =>
      rw [Option.some_bind]
      cases hc2 : budgetWait
          (decide (450000 <
            ((itu.filter (fun p => decide (now1 - 60 < p.1))).map Prod.snd).sum + estIn))
          ((itu.filter (fun p => decide (now1 - 60 < p.1))).head?.map Prod.fst) r1.1 with
      | none => rw [Option.none_bind]
      | some r2 =>
        rw [Option.some_bind]
        simp [budgetWait, h]
  · intro hIn hOut
    rw [acquire]
    generalize (if now0 - (defaultRateLimiter rts itu otu last).last_request_time <
      minRequestInterval then _ else now0) = now1
    simp only [acquireAt, defaultRateLimiter, bind, Option.bind]
    obtain ⟨r1, hr1⟩ := Option.isSome_iff_exists.mp (hbw
      (decide (1000 ≤ (rts.filter (fun t => decide (now1 - 60 < t))).length))
      (rts.filter (fun t => decide (now1 - 60 < t))).head? now1
      (by
        intro hc
        have hlen := of_decide_eq_true hc
        cases hl : rts.filter (fun t => decide (now1 - 60 < t)) with
        | nil => rw [hl] at hlen; simp at hlen
        | cons a as => rfl))
    simp only [hr1]
    obtain ⟨r2, hr2⟩ := Option.isSome_iff_exists.mp (hbw
      (decide (450000 <
        ((itu.filter (fun p => decide (now1 - 60 < p.1))).map Prod.snd).sum + estIn))
      ((itu.filter (fun p => decide (now1 - 60 < p.1))).head?.map Prod.fst) r1.1
      (by
        intro hc
        have hs := of_decide_eq_true hc
        cases hl : itu.filter (fun p => decide (now1 - 60 < p.1)) with
        | nil => rw [hl] at hs; simp at hs; omega
        | cons a as => rfl))
    simp only [hr2]
    obtain ⟨r3, hr3⟩ := Option.isSome_iff_exists.mp (hbw
      (decide (90000 <
        ((otu.filter (fun p => decide (now1 - 60 < p.1))).map Prod.snd).sum + estOut))
      ((otu.filter (fun p => decide (now1 - 60 < p.1))).head?.map Prod.fst) r2.1
      (by
        intro hc
        have hs := of_decide_eq_true hc
        cases hl : otu.filter (fun p => decide (now1 - 60 < p.1)) with
        | nil => rw [hl] at hs; simp at hs; omega
        | cons a as => rfl))
    simp only [hr3]
    rfl

/-- Claim C10 witness: with all windows empty, an input estimate of
500000 (over the 450000 budget) raises; the source's actual estimates
(4000 input / 2000 output tokens, claude_service.py line 21) never do. -/
theorem acquire_empty_window_index_error_witness :
    acquire (defaultRateLimiter [] [] [] 0) 100 500000 1 = none ∧
    (acquire (defaultRateLimiter [] [] [] 0) 100 4000 2000).isSome = true := by
  constructor
  · exact (acquire_empty_window_index_error [] [] [] 0 100 500000 1).1 (by omega)
  · exact (acquire_empty_window_index_error [] [] [] 0 100 4000 2000).2.2
      (by omega) (by omega)

/-- A concrete limiter state (input budget 100) with 90 input tokens in
the window — entries at times 0 and 59 — used to exercise the budget
checks. -/
def overloadedLimiterState : RateLimiterState :=
  ⟨1000, 100, 100, [0, 59], [(0, 1), (59, 89)], [(0, 1), (59, 1)], 0⟩

/-- Claim C7 counterexample: at time 59 with 15 estimated input tokens,
`acquire` on `overloadedLimiterState` triggers only the input-budget
check (sleeping the computed `60 - (59 - 0) + 1 = 2` seconds) and then
records the request at time 61 without re-checking — at which moment the
trailing 60-second input window holds `89 + 15 = 104 > 100` tokens, so
the recorded request does exceed the per-minute input budget. -/
theorem acquire_exceeds_budget_counterexample :
    (acquire overloadedLimiterState 59 15 1).map
      (fun r => (r.finish_time, r.sleeps,
        windowUsageAt r.state.input_token_usage r.finish_time)) =
      some (61, [2], 104) ∧
    overloadedLimiterState.max_input_tokens_per_minute = 100 := by
  constructor
  · have hstep : acquire overloadedLimiterState 59 15 1 =
        acquireAt overloadedLimiterState 59 15 1 := by
      rw [acquire, if_neg (by norm_num [overloadedLimiterState, minRequestInterval])]
    rw [hstep]
    norm_num [acquireAt, overloadedLimiterState, bind, List.filter,
      budgetWait, windowUsageAt]
  · rfl

/-- Claim C7 (amended): when the minimum-interval gate is already
satisfied, the request budget holds, the input budget would be exceeded
by the estimate and the output budget would not, `acquire` sleeps exactly
once, for `60 - (now - oldest_input_entry) + 1` seconds, and immediately
records the request at `now + wait` into the once-pruned windows — a
single sequential pass with no re-pruning or re-checking after the
sleep. -/
theorem acquire_single_pass_wait_formula (st : RateLimiterState)
    (now0 : ℚ) (estIn estOut : Nat) (t0 : ℚ) (tk : Nat)
    (hmin : minRequestInterval ≤ now0 - st.last_request_time)
    (hreq : (st.request_times.filter (fun t => decide (now0 - 60 < t))).length <
      st.max_requests_per_minute)
    (hhead : (st.input_token_usage.filter
      (fun p => decide (now0 - 60 < p.1))).head? = some (t0, tk))
    (hin : st.max_input_tokens_per_minute <
      ((st.input_token_usage.filter
        (fun p => decide (now0 - 60 < p.1))).map Prod.snd).sum + estIn)
    (hout : ((st.output_token_usage.filter
        (fun p => decide (now0 - 60 < p.1))).map Prod.snd).sum + estOut ≤
      st.max_output_tokens_per_minute) :
    (acquire st now0 estIn estOut).map AcquireResult.sleeps =
      some [60 - (now0 - t0) + 1] ∧
    (acquire st now0 estIn estOut).map AcquireResult.finish_time =
      some (now0 + (60 - (now0 - t0) + 1)) ∧
    (acquire st now0 estIn estOut).map
        (fun r => r.state.input_token_usage) =
      some ((st.input_token_usage.filter (fun p => decide (now0 - 60 < p.1))) ++
        [(now0 + (60 - (now0 - t0) + 1), estIn)]) := by
  have hn : ¬ (now0 - st.last_request_time < minRequestInterval) :=
    not_lt.mpr hmin
  have hstep : acquire st now0 estIn estOut = acquireAt st now0 estIn estOut := by
    rw [acquire, if_neg hn]
  rw [hstep]
  simp only [acquireAt, bind, Option.bind, budgetWait, hhead,
    decide_eq_false (not_le.mpr hreq), decide_eq_true hin,
    decide_eq_false (not_lt.mpr hout)]
  simp

/-- Claim C7 amended-theorem witness: on `overloadedLimiterState` at time
59 the hypotheses hold concretely and the single computed wait is 2
seconds with recording at time 61. -/
theorem acquire_single_pass_wait_formula_witness :
    (acquire overloadedLimiterState 59 15 1).map AcquireResult.sleeps =
      some [60 - ((59 : ℚ) - 0) + 1] ∧
    (acquire overloadedLimiterState 59 15 1).map AcquireResult.finish_time =
      some (59 + (60 - ((59 : ℚ) - 0) + 1)) := by
  have h := acquire_single_pass_wait_formula overloadedLimiterState 59 15 1 0 1
    (by norm_num [overloadedLimiterState, minRequestInterval])
    (by norm_num [overloadedLimiterState, List.filter])
    (by norm_num [overloadedLimiterState, List.filter])
    (by norm_num [overloadedLimiterState, List.filter])
    (by norm_num [overloadedLimiterState, List.filter])
  exact ⟨h.1, h.2.1⟩

/-! ## Scheduler: FIFO promotion and the concurrency cap (claim C8) -/

/-- `setStatus` does not change the id column of the dict. -/
theorem setStatus_map_fst (ps : List (String × ProjectStatus)) (id : String)
    (st : ProjectStatus) :
    (setStatus ps id st).map Prod.fst = ps.map Prod.fst := by
  induction ps with
  | nil => rfl
  | cons a as ih =>
    simp only [setStatus, List.map_cons] at ih ⊢
    by_cases h : a.1 = id
    · simp only [if_pos h, ih]
    · simp only [if_neg h, ih]

/-- Membership in a dict after `setStatus`: either the updated entry or
an untouched one. -/
theorem mem_setStatus {ps : List (String × ProjectStatus)} {id : String}
    {st : ProjectStatus} {q : String × ProjectStatus}
    (h : q ∈ setStatus ps id st) :
    (q.1 = id ∧ q.2 = st) ∨ (q ∈ ps ∧ q.1 ≠ id) := by
  unfold setStatus at h
  obtain ⟨p, hp, hq⟩ := List.mem_map.mp h
  by_cases hid : p.1 = id
  · left
    rw [if_pos hid] at hq
    rw [← hq]
    exact ⟨hid, rfl⟩
  · right
    rw [if_neg hid] at hq
    rw [← hq]
    exact ⟨hp, hid⟩

/-- The inductive invariant of the scheduler: the promotion history
followed by the still-queued ids is exactly the submission history; the
processing list respects the concurrency bound; every dict entry with
status PROCESSING is in the processing list; and dict ids are unique. -/
structure SchedInv (m : Nat) (s : SchedState) : Prop where
  fifo : s.promoted ++ s.queue = s.submitted
  cap : s.processing.length ≤ m
  proc_mem : ∀ p ∈ s.projects, p.2 = ProjectStatus.processing →
    p.1 ∈ s.processing
  nodup : (s.projects.map Prod.fst).Nodup

/-- Every scheduler critical section preserves the invariant. -/
theorem schedInv_step {m : Nat} {s s' : SchedState} (h : SchedInv m s)
    (hs : SchedStep m s s') : SchedInv m s' := by
  cases hs with
  | add id hnew =>
    refine ⟨?_, h.cap, ?_, ?_⟩
    · show s.promoted ++ (s.queue ++ [id]) = s.submitted ++ [id]
      rw [← List.append_assoc, h.fifo]
    · intro p hp hst
      rcases List.mem_append.mp hp with hin | hone
      · exact h.proc_mem p hin hst
      · rw [List.mem_singleton.mp hone] at hst
        simp at hst
    · show ((s.projects ++ [(id, ProjectStatus.queued)]).map Prod.fst).Nodup
      rw [List.map_append, List.nodup_append]
      refine ⟨h.nodup, List.nodup_singleton id, ?_⟩
      intro a ha hb
      simp only [List.map_cons, List.map_nil, List.mem_singleton] at hb
      rw [hb] at ha
      exact hnew ha
  | promote id rest hq hcap =>
    refine ⟨?_, ?_, ?_, ?_⟩
    · show (s.promoted ++ [id]) ++ rest = s.submitted
      rw [List.append_assoc, ← h.fifo, hq]
      rfl
    · show (s.processing ++ [id]).length ≤ m
      rw [List.length_append, List.length_singleton]
      omega
    · intro p hp hst
      rcases mem_setStatus hp with ⟨h1, _⟩ | ⟨h1, _⟩
      · rw [h1]
        exact List.mem_append.mpr (Or.inr (List.mem_singleton.mpr rfl))
      · exact List.mem_append.mpr (Or.inl (h.proc_mem p h1 hst))
    · show ((setStatus s.projects id ProjectStatus.processing).map Prod.fst).Nodup
      rw [setStatus_map_fst]
      exact h.nodup
  | finish id st hmem hterm =>
    refine ⟨h.fifo, ?_, ?_, ?_⟩
    · exact le_trans
        (List.Sublist.length_le (List.erase_sublist id s.processing)) h.cap
    · intro p hp hst
      rcases mem_setStatus hp with ⟨_, h2⟩ | ⟨h1, h2⟩
      · rw [h2] at hst
        rcases hterm with ht | ht <;> rw [ht] at hst <;> simp at hst
      · exact (List.mem_erase_of_ne h2).mpr (h.proc_mem p h1 hst)
    · show ((setStatus s.projects id st).map Prod.fst).Nodup
      rw [setStatus_map_fst]
      exact h.nodup

/-- The invariant holds in every reachable scheduler state. -/
theorem schedInv_reachable {m : Nat} {s : SchedState}
    (h : SchedReachable m s) : SchedInv m s := by
  induction h with
  | init =>
    exact ⟨rfl, Nat.zero_le m,
      fun p hp _ => absurd hp (List.not_mem_nil p), List.nodup_nil⟩
  | step _ hs ih => exact schedInv_step ih hs

/-- Claim C8: with `max_concurrent_projects = 1`, in every reachable
scheduler state at most one project has status PROCESSING, and the
sequence of QUEUED→PROCESSING promotions followed by the still-queued
ids is exactly the FIFO submission sequence (so jobs are promoted in
submission order). -/
theorem scheduler_fifo_and_single_processing (s : SchedState)
    (h : SchedReachable 1 s) :
    (s.projects.filter (fun p => p.2 == ProjectStatus.processing)).length ≤ 1 ∧
    s.promoted ++ s.queue = s.submitted := by
  have hinv := schedInv_reachable h
  refine ⟨?_, hinv.fifo⟩
  have hsub : List.Sublist
      (s.projects.filter (fun p => p.2 == ProjectStatus.processing))
      s.projects := List.filter_sublist _
  have hnd : ((s.projects.filter
      (fun p => p.2 == ProjectStatus.processing)).map Prod.fst).Nodup :=
    List.Nodup.sublist (List.Sublist.map Prod.fst hsub) hinv.nodup
  have hss : ((s.projects.filter
      (fun p => p.2 == ProjectStatus.processing)).map Prod.fst) ⊆
      s.processing := by
    intro a ha
    obtain ⟨p, hp, hpa⟩ := List.mem_map.mp ha
    have hf := List.mem_filter.mp hp
    rw [← hpa]
    exact hinv.proc_mem p hf.1 (by simpa using hf.2)
  calc (s.projects.filter (fun p => p.2 == ProjectStatus.processing)).length
      = ((s.projects.filter
          (fun p => p.2 == ProjectStatus.processing)).map Prod.fst).length :=
        (List.length_map _ _).symm
    _ ≤ s.processing.length := (List.subperm_of_subset hnd hss).length_le
    _ ≤ 1 := hinv.cap

/-- Claim C8 witness: submit "a" then "b", promote once — the reachable
state has exactly one PROCESSING project and its promotion history is a
prefix of the submission history. -/
theorem scheduler_fifo_and_single_processing_witness :
    (([("a", ProjectStatus.processing), ("b", ProjectStatus.queued)].filter
      (fun p => p.2 == ProjectStatus.processing)).length ≤ 1) ∧
    ["a"] ++ ["b"] = ["a", "b"] := by
  have h0 : SchedReachable 1 initSched := SchedReachable.init
  have h1 : SchedReachable 1
      ⟨[("a", ProjectStatus.queued)], ["a"], [], ["a"], []⟩ :=
    SchedReachable.step h0 (SchedStep.add initSched "a" (by simp [initSched]))
  have h2 : SchedReachable 1
      ⟨[("a", ProjectStatus.queued), ("b", ProjectStatus.queued)],
        ["a", "b"], [], ["a", "b"], []⟩ :=
    SchedReachable.step h1 (SchedStep.add _ "b" (by simp))
  have h3 : SchedReachable 1
      ⟨[("a", ProjectStatus.processing), ("b", ProjectStatus.queued)],
        ["b"], ["a"], ["a", "b"], ["a"]⟩ :=
    SchedReachable.step h2 (SchedStep.promote _ "a" ["b"] rfl (by decide))
  exact scheduler_fifo_and_single_processing _ h3

/-! ## Reclamation sweep (claim C9) -/

/-- A COMPLETED job created at time 0. -/
def terminalOldTask : ProjectTask :=
  { freshTask "p1" 7 "outline" "" "15k" 100 200 with
      status := ProjectStatus.completed }

/-- A queue holding that one terminal job, with lifetime counters
`totalCompleted = 1`, `totalProcessed = 1`. -/
def staleQueueState : FullQueueState :=
  ⟨[("p1", terminalOldTask)], [], [], ["p1"], [], ⟨1, 0, 1⟩⟩

/-- Claim C9 (code bug): a reclamation sweep at time 100 with retention
window 0 selects the COMPLETED job for removal and then calls
`remove_project` while `cleanup_old_projects` still holds the
non-reentrant `_processing_lock` — so the sweep deadlocks instead of
removing the job.  A stand-alone `remove_project` (lock free), by
contrast, removes the job from the live set and leaves the lifetime
counters untouched, which is what the spec describes for the sweep. -/
theorem cleanup_retention_zero_deadlock :
    cleanupOldProjects false staleQueueState 100 0 = LockResult.deadlock ∧
    removeProject false staleQueueState "p1" =
      LockResult.ok (⟨[], [], [], [], [], ⟨1, 0, 1⟩⟩, true) := by
  constructor
  · norm_num [cleanupOldProjects, staleQueueState, terminalOldTask, freshTask,
      List.filter, removeAll, removeProject]
  · norm_num [removeProject, staleQueueState, terminalOldTask, freshTask,
      List.contains, List.erase, List.filter]
